import Mathlib

set_option maxHeartbeats 1000000

namespace SanctumLibrary

/-! Shallow embedding of the sanctum-library client scripts:
the JSON request helper `apiPost` (static/js/api.js) and the scan
workflow controller (static/js/scan.js). JSON values are modelled by
an inductive type; JavaScript `undefined` is modelled by `Option`
(`none` = undefined). Numbers inside JSON are modelled as integers,
since no behaviour verified here depends on fractional JSON numbers. -/

/-- JSON values as delivered by the server and handled by the client scripts. -/
inductive Json where
  | null
  | bool (b : Bool)
  | num (n : Int)
  | str (s : String)
  | arr (elems : List Json)
  | obj (fields : List (String × Json))

/-- Model of `String.prototype.trim()`: strips whitespace from both ends
(structurally, so that concrete states evaluate inside proofs). -/
def trimStr (s : String) : String :=
  ⟨((s.data.dropWhile Char.isWhitespace).reverse.dropWhile Char.isWhitespace).reverse⟩

/-- Model of `String.prototype.toUpperCase()` (ASCII case mapping). -/
def upperStr (s : String) : String :=
  ⟨s.data.map Char.toUpper⟩

/-- JavaScript truthiness of a JSON value. -/
def jsTruthy : Json → Bool
  | .null => false
  | .bool b => b
  | .num n => n != 0
  | .str s => s != ""
  | .arr _ => true
  | .obj _ => true

/-- First binding of a key in an object's field list. -/
def lookupField : List (String × Json) → String → Option Json
  | [], _ => none
  | (k, v) :: rest, key => if k = key then some v else lookupField rest key

/-- JavaScript property access `v[key]` on a non-null value: `none` models
`undefined`. Strings expose their `length`; other primitives have no
properties of interest. (Access on `null` throws and is handled at call
sites, never through this function.) -/
def fieldD : Json → String → Option Json
  | .obj fs, key => lookupField fs key
  | .str s, key => if key = "length" then some (.num s.length) else none
  | _, _ => none

/-- Truthiness of a possibly-undefined value (`undefined` is falsy). -/
def jsTruthyOpt : Option Json → Bool
  | none => false
  | some v => jsTruthy v

mutual
/-- JavaScript `String(v)` conversion of a JSON value: arrays join their
elements with commas (null elements become empty), objects print as
`[object Object]`. -/
def jsToString : Json → String
  | .null => "null"
  | .bool b => if b then "true" else "false"
  | .num n => toString n
  | .str s => s
  | .arr xs => String.intercalate "," (jsArrParts xs)
  | .obj _ => "[object Object]"

/-- Stringification of array elements for `Array.prototype.join`:
null elements render as the empty string. -/
def jsArrParts : List Json → List String
  | [] => []
  | j :: rest =>
    (match j with
     | .null => ""
     | v => jsToString v) :: jsArrParts rest
end

/-- JavaScript `Array.prototype.join(sep)` on JSON array elements. -/
def jsJoin (sep : String) (xs : List Json) : String :=
  String.intercalate sep (jsArrParts xs)

mutual
/-- Compact model of `JSON.stringify` (the source pretty-prints with
indent 2; no verified behaviour inspects the exact layout). -/
def stringify : Json → String
  | .null => "null"
  | .bool b => if b then "true" else "false"
  | .num n => toString n
  | .str s => "\"" ++ s ++ "\""
  | .arr xs => "[" ++ String.intercalate "," (stringifyList xs) ++ "]"
  | .obj fs => "\x7b" ++ String.intercalate "," (stringifyFields fs) ++ "\x7d"

def stringifyList : List Json → List String
  | [] => []
  | j :: rest => stringify j :: stringifyList rest

def stringifyFields : List (String × Json) → List String
  | [] => []
  | (k, v) :: rest => ("\"" ++ k ++ "\":" ++ stringify v) :: stringifyFields rest
end

/-- A thrown JavaScript error, reduced to its `message` (errors raised by
the code under verification are `Error(msg)` instances and `TypeError`s,
whose browser-generated messages are modelled as fixed strings). -/
structure JsErr where
  message : String
deriving DecidableEq

/-- The `e.message || fallback` pattern used by every catch handler. -/
def msgOr (e : JsErr) (fallback : String) : String :=
  if e.message = "" then fallback else e.message

/-! ## The request client (static/js/api.js, `apiPost`)

The HTTP layer is the environment: a response is its `ok` flag, numeric
status and body text. `JSON.parse` is an environment parameter
`parse : String → Option Json` (`none` models a parse exception). -/

/-- An HTTP response as seen by `apiPost` after `fetch` resolves. -/
structure HttpResponse where
  ok : Bool
  status : Nat
  text : String

/-- The `data` value computed by `apiPost`: an empty body is `null`; a
body that fails to parse becomes a synthetic error object carrying the
raw text. -/
def apiPostData (parse : String → Option Json) (res : HttpResponse) : Json :=
  if res.text = "" then Json.null
  else
    match parse res.text with
    | some j => j
    | none => Json.obj [("error", Json.str "Non-JSON response"), ("raw", Json.str res.text)]

/-- The failure message chosen by `apiPost`:
`(data && data.error) ? data.error : "HTTP " + status`. -/
def apiPostMsg (data : Json) (status : Nat) : String :=
  if jsTruthy data then
    match fieldD data "error" with
    | some v => if jsTruthy v then jsToString v else "HTTP " ++ toString status
    | none => "HTTP " ++ toString status
  else "HTTP " ++ toString status

/-- `apiPost`, given the resolved HTTP response: returns the parsed body
on a successful status, otherwise throws an error with the chosen message. -/
def apiPost (parse : String → Option Json) (res : HttpResponse) : Except JsErr Json :=
  let data := apiPostData parse res
  if res.ok then .ok data
  else .error ⟨apiPostMsg data res.status⟩

/-! ## JavaScript numbers for the debounce delay (scan.js, `scheduleLookup`)

The delay expression `Math.max(50, Math.min(2000, Number(value || 250)))`
works in JavaScript doubles; the values reachable here are rationals,
infinities and NaN, modelled explicitly. -/

/-- A JavaScript number restricted to what `Number(string)` can produce:
a finite rational, an infinity, or NaN. -/
inductive JsNum where
  | nan
  | posInf
  | negInf
  | fin (q : ℚ)
deriving DecidableEq

/-- `Math.min`: NaN-propagating minimum. -/
def jsMin : JsNum → JsNum → JsNum
  | .nan, _ => .nan
  | _, .nan => .nan
  | .negInf, _ => .negInf
  | _, .negInf => .negInf
  | .posInf, b => b
  | a, .posInf => a
  | .fin a, .fin b => .fin (min a b)

/-- `Math.max`: NaN-propagating maximum. -/
def jsMax : JsNum → JsNum → JsNum
  | .nan, _ => .nan
  | _, .nan => .nan
  | .posInf, _ => .posInf
  | _, .posInf => .posInf
  | .negInf, b => b
  | a, .negInf => a
  | .fin a, .fin b => .fin (max a b)

/-- Numeric value of a digit list (most significant first), as an integer. -/
def digitsValInt : List Char → ℤ :=
  List.foldl (fun acc d => 10 * acc + ((d.toNat - 48 : ℕ) : ℤ)) 0

/-- Decimal-literal part of the `Number(string)` grammar: optional sign,
integer and/or fraction digits, optional exponent; the value is
sign·digits·10^(exponent − fraction length). Hexadecimal, octal and binary
literals are not modelled (no verified behaviour reaches them); any other
shape is NaN (`none`). -/
def parseJsDec (cs : List Char) : Option ℚ :=
  let signed : Bool × List Char :=
    match cs with
    | '+' :: r => (false, r)
    | '-' :: r => (true, r)
    | _ => (false, cs)
  let neg := signed.1
  let body := signed.2
  let ip := body.takeWhile Char.isDigit
  let afterInt := body.dropWhile Char.isDigit
  let fracSplit : List Char × List Char :=
    match afterInt with
    | '.' :: r => (r.takeWhile Char.isDigit, r.dropWhile Char.isDigit)
    | _ => ([], afterInt)
  let fp := fracSplit.1
  let rest := fracSplit.2
  if ip = [] ∧ fp = [] then none
  else
    let mag : ℤ := digitsValInt (ip ++ fp)
    let signedMag : ℤ := if neg then -mag else mag
    let scaled : Int → ℚ := fun e =>
      let net : Int := e - fp.length
      if 0 ≤ net then ((signedMag * 10 ^ net.toNat : ℤ) : ℚ)
      else mkRat signedMag (10 ^ (-net).toNat)
    match rest with
    | [] => some (scaled 0)
    | e :: r =>
      if e = 'e' ∨ e = 'E' then
        let esigned : Bool × List Char :=
          match r with
          | '+' :: rr => (false, rr)
          | '-' :: rr => (true, rr)
          | _ => (false, r)
        let ed := esigned.2.takeWhile Char.isDigit
        if ed = [] ∨ esigned.2.dropWhile Char.isDigit ≠ [] then none
        else some (scaled (if esigned.1 then -(digitsValInt ed) else digitsValInt ed))
      else none

/-- Model of JavaScript `Number(string)`: trims whitespace, maps the empty
string to 0, recognises infinities and decimal literals, and yields NaN
otherwise. -/
def jsNumber (s : String) : JsNum :=
  let t := trimStr s
  if t = "" then .fin 0
  else if t = "Infinity" ∨ t = "+Infinity" then .posInf
  else if t = "-Infinity" then .negInf
  else
    match parseJsDec t.data with
    | some q => .fin q
    | none => .nan

/-- The debounce delay computed by `scheduleLookup` from the raw value of
the scanner-delay input: `Math.max(50, Math.min(2000, Number(value || 250)))`. -/
def computeDelay (value : String) : JsNum :=
  jsMax (.fin 50) (jsMin (.fin 2000) (if value = "" then .fin 250 else jsNumber value))

/-- Whether a computed delay is a finite number of milliseconds inside the
closed interval [50, 2000]. -/
def delayInRange : JsNum → Bool
  | .fin q => 50 ≤ q ∧ q ≤ 2000
  | _ => false

/-! ## HTML escaping and the refresh report (scan.js, `escapeHtml`,
`renderRefreshReport`) -/

/-- Replace every occurrence of the character `c` by the string `r`
(character-level model of `String.prototype.replaceAll` with a
one-character pattern). -/
def replAll (c : Char) (r : List Char) : List Char → List Char
  | [] => []
  | x :: xs => (if x = c then r else [x]) ++ replAll c r xs

/-- The five chained `replaceAll` calls of `escapeHtml`, on character lists,
in source order: `&`, `<`, `>`, `"`, `'`. -/
def escChain (cs : List Char) : List Char :=
  replAll (Char.ofNat 39) "&#039;".data
    (replAll (Char.ofNat 34) "&quot;".data
      (replAll '>' "&gt;".data
        (replAll '<' "&lt;".data
          (replAll '&' "&amp;".data cs))))

/-- `escapeHtml` on a string argument. -/
def escStr (s : String) : String :=
  ⟨escChain s.data⟩

/-- `escapeHtml(s)` as in the source: `String(s ?? "")` followed by the five
`replaceAll` calls; `none` models `undefined`. -/
def escapeHtml (s : Option Json) : String :=
  escStr
    (match s with
     | none => ""
     | some .null => ""
     | some v => jsToString v)

/-- Per-character escaping table, as the specification states it: the five
HTML-special characters map to their entities, everything else is kept. -/
def escChar (c : Char) : List Char :=
  if c = '&' then "&amp;".data
  else if c = '<' then "&lt;".data
  else if c = '>' then "&gt;".data
  else if c = Char.ofNat 34 then "&quot;".data
  else if c = Char.ofNat 39 then "&#039;".data
  else [c]

/-- The title string built for a refresh-report item:
`(it.title || "(no title)") + (it.subtitle ? " — " + it.subtitle : "")`. -/
def itemTitle (it : Json) : String :=
  (if jsTruthyOpt (fieldD it "title") then jsToString ((fieldD it "title").getD .null) else "(no title)")
    ++ (if jsTruthyOpt (fieldD it "subtitle") then " — " ++ jsToString ((fieldD it "subtitle").getD .null) else "")

/-- The ISBN string for a refresh-report item: `it.isbn || ""` (coerced to
text when interpolated). -/
def itemIsbn (it : Json) : String :=
  if jsTruthyOpt (fieldD it "isbn") then jsToString ((fieldD it "isbn").getD .null) else ""

/-- The joined source list of a refresh-report item, when `it.sources` does
not throw: `(it.sources || []).join(" + ") || "unknown"`. -/
def itemSrcs (it : Json) : String :=
  let joined :=
    match fieldD it "sources" with
    | some (.arr xs) => jsJoin " + " xs
    | _ => ""
  if joined = "" then "unknown" else joined

/-- Whether building a refresh-report item throws: `it.title` on a null item,
or `.join` on a truthy non-array `it.sources`. -/
def itemThrows (it : Json) : Option JsErr :=
  match it with
  | .null => some ⟨"TypeError: Cannot read properties of null (reading 'title')"⟩
  | _ =>
    match fieldD it "sources" with
    | some (.arr _) => none
    | some v => if jsTruthy v then some ⟨"TypeError: it.sources.join is not a function"⟩ else none
    | none => none

/-- Refresh-report template, up to the title interpolation point. -/
def tplHead : String :=
  "\n          <label style=\"display:flex; gap:.5rem; align-items:flex-start; padding:.4rem 0;\">\n            <input type=\"checkbox\" checked disabled>\n            <div>\n              <div><strong>"

/-- Refresh-report template, between the title and the ISBN. -/
def tplAfterTitle : String :=
  "</strong></div>\n              <div style=\"opacity:.75; font-size:.9em;\">\n                ISBN: <code>"

/-- Refresh-report template, between the ISBN and the source list. -/
def tplAfterIsbn : String :=
  "</code> · Source: "

/-- Refresh-report template, after the source list. -/
def tplTail : String :=
  "\n              </div>\n            </div>\n          </label>\n        "

/-- The markup produced for one refresh-report item, with `escapeHtml`
applied to the title, ISBN and source strings exactly as in the source
template. -/
def itemHtml (it : Json) : Except JsErr String :=
  match itemThrows it with
  | some e => .error e
  | none =>
    .ok (tplHead
      ++ escapeHtml (some (.str (itemTitle it)))
      ++ tplAfterTitle
      ++ escapeHtml (some (.str (itemIsbn it)))
      ++ tplAfterIsbn
      ++ escapeHtml (some (.str (itemSrcs it)))
      ++ tplTail)

/-- `items.map(itemHtml)` up to the first thrown error, concatenated by
`join("")`. -/
def itemsHtml : List Json → Except JsErr String
  | [] => .ok ""
  | it :: rest =>
    match itemHtml it with
    | .error e => .error e
    | .ok h =>
      match itemsHtml rest with
      | .error e => .error e
      | .ok hs => .ok (h ++ hs)

/-! ## The scan page UI state (scan.js) -/

/-- The DOM and module state touched by the scan workflow controller.
`lastLookup` mirrors the module variable (initially `null`, and it can be
re-assigned `null` when the server returns an empty body). -/
structure UIState where
  statusVisible : Bool
  statusText : String
  statusIsError : Bool
  previewVisible : Bool
  coverVisible : Bool
  coverSrc : String
  titleText : String
  metaText : String
  providerText : String
  rawText : String
  btnSaveDisabled : Bool
  lastLookup : Json
  codeValue : String
  scannerMode : Bool
  scannerDelayValue : String
  chkDryRun : Bool
  refreshReportVisible : Bool
  refreshListHtml : String

/-- `showStatus(msg, isError)`. -/
def showStatus (st : UIState) (msg : String) (isError : Bool) : UIState :=
  { st with statusVisible := true, statusIsError := isError, statusText := msg }

/-- `clearUI()`. -/
def clearUI (st : UIState) : UIState :=
  { st with
    statusVisible := false
    previewVisible := false
    coverVisible := false
    coverSrc := ""
    titleText := ""
    metaText := ""
    providerText := ""
    rawText := "\x7b\x7d"
    btnSaveDisabled := true
    lastLookup := .null }

/-- `clearRefreshReport()`. -/
def clearRefreshReport (st : UIState) : UIState :=
  { st with refreshReportVisible := false, refreshListHtml := "" }

/-- The list selected by `renderRefreshReport`: `result?.updated_items || []`. -/
def refreshItems (result : Json) : Json :=
  match result with
  | .null => .arr []
  | v =>
    match fieldD v "updated_items" with
    | some w => if jsTruthy w then w else .arr []
    | none => .arr []

/-- `renderRefreshReport(result)`: hides the report when the selected list
is empty (or has no `length`), otherwise shows it and fills it with the
item markup; `.map` on a truthy non-array with a truthy `length` (a
non-empty string) throws inside the caller's try. -/
def renderRefreshReport (result : Json) (st : UIState) : UIState × Option JsErr :=
  match refreshItems result with
  | .arr xs =>
    if xs.isEmpty then ({ st with refreshReportVisible := false }, none)
    else
      let st := { st with refreshReportVisible := true }
      match itemsHtml xs with
      | .error e => (st, some e)
      | .ok h => ({ st with refreshListHtml := h }, none)
  | .str s =>
    if s.length = 0 then ({ st with refreshReportVisible := false }, none)
    else
      ({ st with refreshReportVisible := true },
       some ⟨"TypeError: items.map is not a function"⟩)
  | _ => ({ st with refreshReportVisible := false }, none)

/-! ## renderLookup (scan.js lines 106-152)

`renderLookup` is total up to the JavaScript exceptions it can raise while
reading fields of an arbitrary response value; it returns the state as
mutated up to the throw point together with the thrown error. -/

/-- `result.error` truthiness (`result` known non-null at the check). -/
def errTruthy (r : Json) : Bool :=
  jsTruthyOpt (fieldD r "error")

/-- `result.book` truthiness. -/
def bookTruthy (r : Json) : Bool :=
  jsTruthyOpt (fieldD r "book")

/-- `(book.authors || []).join(", ")`, throwing on a truthy non-array. -/
def authorsJoined (b : Json) : Except JsErr String :=
  match fieldD b "authors" with
  | some (.arr xs) => .ok (jsJoin ", " xs)
  | some v =>
    if jsTruthy v then .error ⟨"TypeError: book.authors.join is not a function"⟩
    else .ok (jsJoin ", " [])
  | none => .ok (jsJoin ", " [])

/-- `book.language ? book.language.toUpperCase() : null`, throwing when a
truthy `language` is not a string. -/
def languageEntry (b : Json) : Except JsErr (Option String)  :=
  match fieldD b "language" with
  | some (.str s) => if jsTruthy (.str s) then .ok (some (upperStr s)) else .ok none
  | some v =>
    if jsTruthy v then .error ⟨"TypeError: book.language.toUpperCase is not a function"⟩
    else .ok none
  | none => .ok none

/-- `(book.sources || []).map(s => s?.provider).filter(Boolean)`, throwing
on a truthy non-array. -/
def sourcesList (b : Json) : Except JsErr (List Json) :=
  match fieldD b "sources" with
  | some (.arr xs) =>
    .ok ((xs.filterMap fun s =>
      match s with
      | .null => none
      | v => fieldD v "provider").filter jsTruthy)
  | some v =>
    if jsTruthy v then .error ⟨"TypeError: book.sources.map is not a function"⟩
    else .ok []
  | none => .ok []

/-- The `meta` line: the four candidate entries, `filter(Boolean)`,
joined by `" · "`. -/
def metaLine (b : Json) (joinedAuthors : String) (lang : Option String) : String :=
  let entries : List (Option String) :=
    [ some (if joinedAuthors = "" then "(no authors)" else joinedAuthors)
    , some (if jsTruthyOpt (fieldD b "publish_date")
            then jsToString ((fieldD b "publish_date").getD .null) else "(no date)")
    , if jsTruthyOpt (fieldD b "nb_pages")
      then some (jsToString ((fieldD b "nb_pages").getD .null) ++ " pages") else none
    , lang.map id ]
  String.intercalate " · " ((entries.filterMap id).filter (· ≠ ""))

/-- The success-branch book rendering of `renderLookup`, entered with a
truthy `book` value; mutations happen in source order up to any throw. -/
def renderBook (book : Json) (st : UIState) : UIState × Option JsErr :=
  let st := { st with previewVisible := true }
  let st := { st with titleText :=
    (if jsTruthyOpt (fieldD book "title") then jsToString ((fieldD book "title").getD .null)
     else "(no title)")
    ++ (if jsTruthyOpt (fieldD book "subtitle")
        then " — " ++ jsToString ((fieldD book "subtitle").getD .null) else "") }
  match authorsJoined book with
  | .error e => (st, some e)
  | .ok joined =>
    match languageEntry book with
    | .error e => (st, some e)
    | .ok lang =>
      let st := { st with metaText := metaLine book joined lang }
      match sourcesList book with
      | .error e => (st, some e)
      | .ok srcs =>
        let st := { st with providerText :=
          "Source: " ++ (if srcs.isEmpty then "unknown" else jsJoin " + " srcs) }
        let st :=
          if jsTruthyOpt (fieldD book "cover_image") then
            { st with coverSrc := jsToString ((fieldD book "cover_image").getD .null),
                      coverVisible := true }
          else
            { st with coverVisible := false }
        ({ st with btnSaveDisabled := false }, none)

/-- `renderLookup(result)` on an arbitrary response value. -/
def renderLookup (result : Json) (st : UIState) : UIState × Option JsErr :=
  let st := { st with lastLookup := result, rawText := stringify result }
  match result with
  | .null => (st, some ⟨"TypeError: Cannot read properties of null (reading 'error')"⟩)
  | r =>
    if errTruthy r then
      let st := showStatus st (jsToString ((fieldD r "error").getD .null)) true
      ({ st with previewVisible := false, btnSaveDisabled := true }, none)
    else
      match fieldD r "kind" with
      | some (.str k) =>
        let st := showStatus st
          ("OK: " ++ upperStr k ++ " "
            ++ (match fieldD r "value" with
                | some v => jsToString v
                | none => "undefined")) false
        if bookTruthy r then
          renderBook ((fieldD r "book").getD .null) st
        else
          ({ st with previewVisible := false, btnSaveDisabled := true }, none)
      | _ => (st, some ⟨"TypeError: result.kind.toUpperCase is not a function"⟩)

/-! ## The workflow handlers (scan.js, `doLookup` / `doSave` /
`refreshAllBooks`)

Each handler takes the outcome of its awaited `apiPost` call from the
environment (`Except JsErr Json`: a parsed body or a thrown error) and
returns the new UI state together with the requests it issued. -/

/-- A request issued through `apiPost`. -/
inductive Request where
  | lookup (code : String)
  | save (book : Json)
  | refresh (dryRun : Bool) (onlyMissing : Bool)

/-- `doLookup()`: no-op on an empty trimmed code; otherwise clears the UI,
shows the looking-up status, issues exactly one lookup request with the
trimmed code, and renders the response, converting any thrown error into
status text. -/
def doLookup (resp : Except JsErr Json) (st : UIState) : UIState × List Request :=
  let code := trimStr st.codeValue
  if code = "" then (st, [])
  else
    let st := showStatus (clearUI st) "Looking up..." false
    match resp with
    | .error e =>
      let st := showStatus st (msgOr e "Lookup failed") true
      ({ st with rawText := stringify (.obj [("error", .str ("Error: " ++ e.message))]) },
       [.lookup code])
    | .ok result =>
      match renderLookup result st with
      | (st, none) => (st, [.lookup code])
      | (st, some e) =>
        let st := showStatus st (msgOr e "Lookup failed") true
        ({ st with rawText := stringify (.obj [("error", .str ("Error: " ++ e.message))]) },
         [.lookup code])

/-- The book guard of `doSave`: `lastLookup?.book`, when truthy. -/
def savedBook (st : UIState) : Option Json :=
  match st.lastLookup with
  | .null => none
  | lk =>
    match fieldD lk "book" with
    | some b => if jsTruthy b then some b else none
    | none => none

/-- `doSave()`: no-op without a current book; otherwise shows the saving
status, issues one save request, and on success stores the raw response,
shows the saved status and disables save — unless the response body is
`null`, in which case reading `result.saved` throws before the disable and
the catch shows the error instead. -/
def doSave (resp : Except JsErr Json) (st : UIState) : UIState × List Request :=
  match savedBook st with
  | none => (st, [])
  | some book =>
    let st := showStatus st "Saving..." false
    match resp with
    | .error e => (showStatus st (msgOr e "Save failed") true, [.save book])
    | .ok result =>
      let st := { st with rawText := stringify result }
      match result with
      | .null =>
        (showStatus st (msgOr ⟨"TypeError: Cannot read properties of null (reading 'saved')"⟩ "Save failed") true,
         [.save book])
      | r =>
        let idStr :=
          match fieldD r "saved" with
          | some .null => "no id"
          | some sv =>
            match fieldD sv "id" with
            | some idv => if jsTruthy idv then jsToString idv else "no id"
            | none => "no id"
          | none => "no id"
        let st := showStatus st ("Saved ✅  (" ++ idStr ++ ")") false
        ({ st with btnSaveDisabled := true }, [.save book])

/-- `refreshAllBooks()`: guarded by the confirmation dialog; shows the
refreshing status, issues one refresh request with the dry-run flag, and on
success stores the raw response, renders the report and shows the count
summary, converting any thrown error (including reading `result.counts` of
a null or counts-less body) into status text. -/
def refreshAllBooks (confirmed : Bool) (resp : Except JsErr Json) (st : UIState) :
    UIState × List Request :=
  if ¬confirmed then (st, [])
  else
    let st := showStatus st "Refreshing all books..." false
    let req := Request.refresh st.chkDryRun false
    match resp with
    | .error e => (showStatus st (msgOr e "Refresh failed") true, [req])
    | .ok result =>
      let st := { st with rawText := stringify result }
      match renderRefreshReport result st with
      | (st, some e) => (showStatus st (msgOr e "Refresh failed") true, [req])
      | (st, none) =>
        match result with
        | .null =>
          (showStatus st (msgOr ⟨"TypeError: Cannot read properties of null (reading 'counts')"⟩ "Refresh failed") true,
           [req])
        | r =>
          match fieldD r "counts" with
          | none =>
            (showStatus st (msgOr ⟨"TypeError: Cannot read properties of undefined (reading 'updated')"⟩ "Refresh failed") true,
             [req])
          | some .null =>
            (showStatus st (msgOr ⟨"TypeError: Cannot read properties of null (reading 'updated')"⟩ "Refresh failed") true,
             [req])
          | some c =>
            let part := fun (k : String) =>
              match fieldD c k with
              | some v => jsToString v
              | none => "undefined"
            (showStatus st
              ("Done: " ++ part "updated" ++ " updated · "
                ++ part "skipped" ++ " skipped · "
                ++ part "failed" ++ " failed") false,
             [req])

/-! ## Timers and the event-step system (scan.js event listeners)

The debounce timer handle `lookupTimer` and the environment's set of live
(scheduled, unfired, uncancelled) timers are modelled explicitly, so that
"at most one pending timer" is a provable invariant rather than a typing
artifact. -/

/-- The whole page: UI state, the `lookupTimer` variable, the live timers
(identifier and delay) and a fresh-identifier counter. -/
structure Sys where
  st : UIState
  lookupTimer : Option Nat
  live : List (Nat × JsNum)
  nextId : Nat

/-- `clearTimeout(id)`. -/
def clearTimeoutSys (id : Nat) (s : Sys) : Sys :=
  { s with live := s.live.filter (fun t => t.1 ≠ id) }

/-- `scheduleLookup()`: inactive outside scanner mode; otherwise clears the
previous debounce timer (if any) and schedules a fresh one with the
computed delay. -/
def scheduleLookup (s : Sys) : Sys :=
  if s.st.scannerMode = false then s
  else
    let ms := computeDelay s.st.scannerDelayValue
    let s :=
      match s.lookupTimer with
      | some id => clearTimeoutSys id s
      | none => s
    { s with
      live := s.live ++ [(s.nextId, ms)]
      lookupTimer := some s.nextId
      nextId := s.nextId + 1 }

/-- The page events, with server responses supplied by the environment. -/
inductive Ev where
  | input (v : String)
  | enter (resp : Except JsErr Json)
  | clickLookup (resp : Except JsErr Json)
  | clickSave (resp : Except JsErr Json)
  | clickClear
  | fireTimer (resp : Except JsErr Json)
  | modeChange (checked : Bool)
  | delayChange (v : String)
  | clickRefresh (confirmed : Bool) (resp : Except JsErr Json)

/-- Clearing the pending debounce timer (`clearTimeout` + null the handle),
as done by the Enter and Clear handlers. -/
def cancelPending (s : Sys) : Sys :=
  match s.lookupTimer with
  | some id => { clearTimeoutSys id s with lookupTimer := none }
  | none => s

/-- One page event: the listener bodies of scan.js, with `doLookup`,
`doSave` and `refreshAllBooks` given their awaited response from the
environment. `fireTimer` fires the pending debounce timer when it is still
live. -/
def step (ev : Ev) (s : Sys) : Sys × List Request :=
  match ev with
  | .input v =>
    (scheduleLookup { s with st := { s.st with codeValue := v } }, [])
  | .enter resp =>
    let s := cancelPending s
    let (st, reqs) := doLookup resp s.st
    ({ s with st := st }, reqs)
  | .clickLookup resp =>
    let (st, reqs) := doLookup resp s.st
    ({ s with st := st }, reqs)
  | .clickSave resp =>
    let (st, reqs) := doSave resp s.st
    ({ s with st := { st with codeValue := "" } }, reqs)
  | .clickClear =>
    let s := { s with st := { clearUI s.st with codeValue := "" } }
    (cancelPending s, [])
  | .fireTimer resp =>
    match s.lookupTimer with
    | some id =>
      if s.live.any (fun t => t.1 = id) then
        let s := { clearTimeoutSys id s with lookupTimer := none }
        let (st, reqs) := doLookup resp s.st
        ({ s with st := st }, reqs)
      else (s, [])
    | none => (s, [])
  | .modeChange checked =>
    ({ s with st := { s.st with scannerMode := checked } }, [])
  | .delayChange v =>
    ({ s with st := { s.st with scannerDelayValue := v } }, [])
  | .clickRefresh confirmed resp =>
    let (st, reqs) := refreshAllBooks confirmed resp s.st
    ({ s with st := st }, reqs)

/-- The timer invariant: the live timers are exactly the one named by
`lookupTimer` (when any), and its identifier is fresh-bounded. -/
def SysInv (s : Sys) : Prop :=
  match s.lookupTimer with
  | none => s.live = []
  | some id => (∃ d, s.live = [(id, d)]) ∧ id < s.nextId

/-! ## Specification-side predicates and fixtures -/

/-- Character-by-character escaping, as the specification words it:
every special character replaced by its entity, the rest unchanged. -/
def escSpec (s : String) : String :=
  ⟨(s.data.map escChar).flatten⟩

/-- No character of the string is a raw `<`, `>`, double quote or single
quote (an `&` may remain only as part of an inserted entity, which the
character-level description `escSpec` accounts for). -/
def noRawSpecialsB (s : String) : Bool :=
  s.data.all fun x =>
    x ≠ '<' && x ≠ '>' && x ≠ Char.ofNat 34 && x ≠ Char.ofNat 39

/-- Whether an `Except` result is a success. -/
def exOk : Except JsErr α → Bool
  | .ok _ => true
  | .error _ => false

/-- A well-formed book value per the spec's data model: the three field
reads of the book branch (`authors`, `language`, `sources`) do not throw. -/
def bookWF (b : Json) : Bool :=
  exOk (authorsJoined b) && exOk (languageEntry b) && exOk (sourcesList b)

/-- A well-formed lookup response per the spec's data model: an object
which either carries a truthy error, or has a string `kind` and (when a
book is present) a well-formed book. -/
def lookupWF (r : Json) : Bool :=
  match r with
  | .obj _ =>
    errTruthy r
      || (match fieldD r "kind" with
          | some (.str _) => !bookTruthy r || bookWF ((fieldD r "book").getD .null)
          | _ => false)
  | _ => false

/-- The only events that may re-enable the save action: a lookup trigger
whose response resolved to a book-carrying, error-free result. -/
def enablingLookup : Ev → Bool
  | .clickLookup (.ok d) => !errTruthy d && bookTruthy d
  | .enter (.ok d) => !errTruthy d && bookTruthy d
  | .fireTimer (.ok d) => !errTruthy d && bookTruthy d
  | _ => false

/-- The cleared page state after boot (`clearUI` on load). -/
def blankUI : UIState :=
  { statusVisible := false
    statusText := ""
    statusIsError := false
    previewVisible := false
    coverVisible := false
    coverSrc := ""
    titleText := ""
    metaText := ""
    providerText := ""
    rawText := "\x7b\x7d"
    btnSaveDisabled := true
    lastLookup := .null
    codeValue := ""
    scannerMode := false
    scannerDelayValue := ""
    chkDryRun := false
    refreshReportVisible := false
    refreshListHtml := "" }

/-- Fixture: a page in scanner mode with a pending debounce timer and a
scanned code in the field. -/
def pendSys : Sys :=
  { st := { blankUI with codeValue := "9780132350884", scannerMode := true, scannerDelayValue := "100" }
    lookupTimer := some 0
    live := [(0, .fin 100)]
    nextId := 1 }

/-- Fixture: a page with a pending debounce timer left over after scanner
mode was switched off. -/
def offPendSys : Sys :=
  { st := blankUI
    lookupTimer := some 0
    live := [(0, .fin 250)]
    nextId := 1 }

/-- Fixture: a lookup error response (`{error: "Not found"}`). -/
def nfResp : Except JsErr Json :=
  .ok (.obj [("error", .str "Not found")])

/-- Fixture: a book value. -/
def bookJson : Json :=
  .obj [ ("title", .str "Clean Code")
       , ("authors", .arr [.str "Robert C. Martin"])
       , ("sources", .arr [.obj [("provider", .str "openlibrary")]]) ]

/-- Fixture: a successful lookup response carrying `bookJson`. -/
def lkJson : Json :=
  .obj [("kind", .str "isbn"), ("value", .str "9780132350884"), ("book", bookJson)]

/-- Fixture: the page right after that lookup rendered, save enabled. -/
def savedSt : UIState :=
  { blankUI with lastLookup := lkJson, btnSaveDisabled := false }

/-- Fixture: the same page with a code in the field. -/
def errSt : UIState :=
  { savedSt with codeValue := "x" }

/-! # Theorems -/

/-- C3 (counterexample): a non-2xx response whose body parses to
`{error: ""}` has the `error` field present, yet `apiPost` raises the
generic `HTTP 500` message, not the server-supplied field: the field is
only used when truthy. -/
theorem apiPost_empty_error_field_falls_back :
    fieldD (apiPostData (fun _ => some (.obj [("error", .str "")])) ⟨false, 500, "x"⟩) "error"
      = some (Json.str "")
    ∧ apiPost (fun _ => some (.obj [("error", .str "")])) ⟨false, 500, "x"⟩
      = .error ⟨"HTTP 500"⟩ :=
  ⟨rfl, rfl⟩

/-- C3 (amended): on a successful status `apiPost` returns the parsed body
without raising; on a failure status it raises the server-supplied `error`
field when that field is present and truthy (a non-empty string), and the
generic `HTTP <status>` message when no truthy `error` field exists. -/
theorem apiPost_error_message (parse : String → Option Json) (res : HttpResponse) :
    (res.ok = true → apiPost parse res = .ok (apiPostData parse res))
    ∧ (res.ok = false →
        (∀ m : String, m ≠ "" →
          fieldD (apiPostData parse res) "error" = some (.str m) →
          apiPost parse res = .error ⟨m⟩)
        ∧ (jsTruthyOpt (fieldD (apiPostData parse res) "error") = false →
          apiPost parse res = .error ⟨"HTTP " ++ toString res.status⟩)) := by
  refine ⟨fun h => by simp [apiPost, h], fun h => ⟨?_, ?_⟩⟩
  · intro m hm hf
    have hmsg : apiPostMsg (apiPostData parse res) res.status = m := by
      rcases hd : apiPostData parse res with _ | b | n | s | xs | fs
      · rw [hd] at hf; simp [fieldD] at hf
      · rw [hd] at hf; simp [fieldD] at hf
      · rw [hd] at hf; simp [fieldD] at hf
      · rw [hd] at hf
        simp only [fieldD] at hf
        rw [if_neg (by decide)] at hf
        exact absurd hf (by simp)
      · rw [hd] at hf; simp [fieldD] at hf
      · rw [hd] at hf
        simp only [fieldD] at hf
        simp only [apiPostMsg, jsTruthy, if_true, fieldD]
        rw [hf]
        simp [jsTruthy, hm, jsToString]
    simp [apiPost, h, hmsg]
  · intro hfalse
    have hmsg : apiPostMsg (apiPostData parse res) res.status
        = "HTTP " ++ toString res.status := by
      unfold apiPostMsg
      by_cases ht : jsTruthy (apiPostData parse res)
      · rw [if_pos ht]
        rcases hf : fieldD (apiPostData parse res) "error" with _ | v
        · rfl
        · rw [hf] at hfalse
          simp only [jsTruthyOpt] at hfalse
          simp [hfalse]
      · rw [if_neg ht]
    simp [apiPost, h, hmsg]

/-- C3 (witness): concrete instances of the three branches. -/
theorem apiPost_error_message_witness :
    apiPost (fun _ => some (.obj [("error", .str "boom")])) ⟨false, 500, "x"⟩ = .error ⟨"boom"⟩
    ∧ apiPost (fun _ => some (.obj [("n", .num 1)])) ⟨false, 404, "x"⟩ = .error ⟨"HTTP 404"⟩
    ∧ apiPost (fun _ => some (.obj [("ok", .bool true)])) ⟨true, 200, "x"⟩
      = .ok (apiPostData (fun _ => some (.obj [("ok", .bool true)])) ⟨true, 200, "x"⟩) :=
  ⟨((apiPost_error_message _ _).2 rfl).1 "boom" (by decide) rfl,
   ((apiPost_error_message _ _).2 rfl).2 rfl,
   (apiPost_error_message _ _).1 rfl⟩

/-- C4: an empty response body is treated as `null` (never handed to the
parser, returned as `null` on a successful status), and a non-empty body
that fails to parse becomes a synthetic error object carrying the raw
text, which is what a successful status returns. -/
theorem apiPost_body_parsing (parse : String → Option Json) (res : HttpResponse) :
    (res.text = "" →
      apiPostData parse res = Json.null
      ∧ (res.ok = true → apiPost parse res = .ok Json.null))
    ∧ (res.text ≠ "" → parse res.text = none →
      apiPostData parse res
        = Json.obj [("error", Json.str "Non-JSON response"), ("raw", Json.str res.text)]
      ∧ (res.ok = true →
        apiPost parse res
          = .ok (Json.obj [("error", Json.str "Non-JSON response"), ("raw", Json.str res.text)]))) := by
  constructor
  · intro h
    have hd : apiPostData parse res = Json.null := by simp [apiPostData, h]
    exact ⟨hd, fun hok => by simp [apiPost, hok, hd]⟩
  · intro h hp
    have hd : apiPostData parse res
        = Json.obj [("error", Json.str "Non-JSON response"), ("raw", Json.str res.text)] := by
      simp [apiPostData, h, hp]
    exact ⟨hd, fun hok => by simp [apiPost, hok, hd]⟩

/-- C4 (witness): an empty 200 body yields `.ok null`; a non-JSON 200 body
yields the synthetic error object. -/
theorem apiPost_body_parsing_witness :
    apiPost (fun _ => none) ⟨true, 200, ""⟩ = .ok Json.null
    ∧ apiPost (fun _ => none) ⟨true, 200, "!"⟩
      = .ok (.obj [("error", .str "Non-JSON response"), ("raw", .str "!")]) :=
  ⟨((apiPost_body_parsing _ _).1 rfl).2 rfl,
   ((apiPost_body_parsing _ _).2 (by decide) rfl).2 rfl⟩

/-- C7 (counterexample): the scanner-delay input value `"abc"` makes
`Number` yield NaN, which `Math.min`/`Math.max` propagate, so the computed
delay is NaN — outside the closed interval [50, 2000]. -/
theorem computeDelay_nan_escapes_range :
    computeDelay "abc" = JsNum.nan ∧ delayInRange (computeDelay "abc") = false := by
  constructor <;> decide

/-- C7 (amended): an empty scanner-delay input defaults to 250 ms, and every
value that `Number` parses to a finite number is clamped into [50, 2000]
(infinities clamp to the endpoints); a value parsing to NaN escapes the
interval. -/
theorem computeDelay_range (v : String) :
    computeDelay "" = .fin 250
    ∧ (∀ q : ℚ, jsNumber v = .fin q → delayInRange (computeDelay v) = true)
    ∧ (jsNumber v = .posInf → computeDelay v = .fin 2000)
    ∧ (jsNumber v = .negInf → computeDelay v = .fin 50) := by
  refine ⟨by decide, ?_, ?_, ?_⟩
  · intro q hq
    by_cases hv : v = ""
    · subst hv; decide
    · unfold computeDelay
      rw [if_neg hv, hq]
      simp only [jsMin, jsMax, delayInRange]
      simp only [decide_eq_true_eq]
      exact ⟨le_max_left _ _,
        max_le (by norm_num) (le_trans (min_le_left _ _) (by norm_num))⟩
  · intro hq
    by_cases hv : v = ""
    · subst hv; exact absurd hq (by decide)
    · unfold computeDelay
      rw [if_neg hv, hq]
      decide
  · intro hq
    by_cases hv : v = ""
    · subst hv; exact absurd hq (by decide)
    · unfold computeDelay
      rw [if_neg hv, hq]
      decide

/-- C7 (witness): concrete delays — `"100"` stays inside the interval,
`""` defaults, `"Infinity"` clamps to the upper endpoint. -/
theorem computeDelay_range_witness :
    delayInRange (computeDelay "100") = true
    ∧ computeDelay "" = .fin 250
    ∧ computeDelay "Infinity" = .fin 2000 :=
  ⟨(computeDelay_range "100").2.1 100 (by decide),
   (computeDelay_range "").1,
   (computeDelay_range "Infinity").2.2.1 (by decide)⟩

/-- Single-character `replaceAll` distributes over append. -/
theorem replAll_append (c : Char) (r a b : List Char) :
    replAll c r (a ++ b) = replAll c r a ++ replAll c r b := by
  induction a with
  | nil => rfl
  | cons x xs ih => simp [replAll, ih]

/-- The escaping chain distributes over append. -/
theorem escChain_append (a b : List Char) :
    escChain (a ++ b) = escChain a ++ escChain b := by
  simp [escChain, replAll_append]

/-- On one character the chained `replaceAll`s agree with the per-character
escaping table. -/
theorem escChain_single (x : Char) : escChain [x] = escChar x := by
  by_cases h1 : x = '&'
  · subst h1; decide
  by_cases h2 : x = '<'
  · subst h2; decide
  by_cases h3 : x = '>'
  · subst h3; decide
  by_cases h4 : x = Char.ofNat 34
  · subst h4; decide
  by_cases h5 : x = Char.ofNat 39
  · subst h5; decide
  simp [escChain, replAll, escChar, h1, h2, h3, h4, h5]

/-- The escaping chain is the concatenation of per-character escapes. -/
theorem escChain_flatten (l : List Char) :
    escChain l = (l.map escChar).flatten := by
  induction l with
  | nil => rfl
  | cons x xs ih =>
    have : x :: xs = [x] ++ xs := rfl
    rw [this, escChain_append, escChain_single, ih]
    rfl

/-- Each per-character escape block holds no raw `<`, `>`, `"` or `'`. -/
theorem escChar_all_safe (x : Char) :
    (escChar x).all
      (fun y => y ≠ '<' && y ≠ '>' && y ≠ Char.ofNat 34 && y ≠ Char.ofNat 39) = true := by
  unfold escChar
  by_cases h1 : x = '&'
  · subst h1; decide
  rw [if_neg h1]
  by_cases h2 : x = '<'
  · subst h2; decide
  rw [if_neg h2]
  by_cases h3 : x = '>'
  · subst h3; decide
  rw [if_neg h3]
  by_cases h4 : x = Char.ofNat 34
  · subst h4; decide
  rw [if_neg h4]
  by_cases h5 : x = Char.ofNat 39
  · subst h5; decide
  rw [if_neg h5]
  simp [h2, h3, h4, h5]

/-- The whole escaped output holds no raw `<`, `>`, `"` or `'`. -/
theorem escChain_all_safe (l : List Char) :
    (escChain l).all
      (fun y => y ≠ '<' && y ≠ '>' && y ≠ Char.ofNat 34 && y ≠ Char.ofNat 39) = true := by
  induction l with
  | nil => rfl
  | cons x xs ih =>
    have hx : x :: xs = [x] ++ xs := rfl
    rw [hx, escChain_append, List.all_append, escChain_single]
    rw [escChar_all_safe, ih]
    rfl

/-- C10: `escapeHtml` replaces every occurrence of the five HTML-special
characters by their entities (character-by-character, `escSpec`), maps
null/undefined to the empty string, its output holds no raw `<`, `>`, `"`
or `'`, and `renderRefreshReport`'s item markup applies it to the title,
ISBN and source strings it interpolates, so those fragments hold no raw
specials either. -/
theorem escapeHtml_escapes (s : String) (it : Json) :
    escStr s = escSpec s
    ∧ escapeHtml none = "" ∧ escapeHtml (some .null) = ""
    ∧ noRawSpecialsB (escStr s) = true
    ∧ (itemThrows it = none →
        itemHtml it
          = .ok (tplHead ++ escStr (itemTitle it) ++ tplAfterTitle
              ++ escStr (itemIsbn it) ++ tplAfterIsbn
              ++ escStr (itemSrcs it) ++ tplTail)
        ∧ noRawSpecialsB (escStr (itemTitle it)) = true
        ∧ noRawSpecialsB (escStr (itemIsbn it)) = true
        ∧ noRawSpecialsB (escStr (itemSrcs it)) = true) := by
  have hspec : ∀ t : String, escStr t = escSpec t := by
    intro t
    show (⟨escChain t.data⟩ : String) = ⟨(t.data.map escChar).flatten⟩
    rw [escChain_flatten]
  have hsafe : ∀ t : String, noRawSpecialsB (escStr t) = true := by
    intro t
    show (escChain t.data).all _ = true
    exact escChain_all_safe t.data
  refine ⟨hspec s, rfl, rfl, hsafe s, fun h => ⟨?_, hsafe _, hsafe _, hsafe _⟩⟩
  simp [itemHtml, h]
  rfl

/-- C10 (witness): a refresh item whose title, ISBN and sources carry each
special character renders without throwing, with the escaped fragments. -/
theorem escapeHtml_escapes_witness :
    itemThrows (.obj [("title", .str "A<b&c"), ("isbn", .str "1\"2"),
        ("sources", .arr [.str "x'y"])]) = none
    ∧ (itemHtml (.obj [("title", .str "A<b&c"), ("isbn", .str "1\"2"),
        ("sources", .arr [.str "x'y"])])
        = .ok (tplHead
            ++ escStr (itemTitle (.obj [("title", .str "A<b&c"), ("isbn", .str "1\"2"),
                ("sources", .arr [.str "x'y"])]))
            ++ tplAfterTitle
            ++ escStr (itemIsbn (.obj [("title", .str "A<b&c"), ("isbn", .str "1\"2"),
                ("sources", .arr [.str "x'y"])]))
            ++ tplAfterIsbn
            ++ escStr (itemSrcs (.obj [("title", .str "A<b&c"), ("isbn", .str "1\"2"),
                ("sources", .arr [.str "x'y"])]))
            ++ tplTail)
      ∧ noRawSpecialsB (escStr (itemTitle (.obj [("title", .str "A<b&c"),
          ("isbn", .str "1\"2"), ("sources", .arr [.str "x'y"])]))) = true
      ∧ noRawSpecialsB (escStr (itemIsbn (.obj [("title", .str "A<b&c"),
          ("isbn", .str "1\"2"), ("sources", .arr [.str "x'y"])]))) = true
      ∧ noRawSpecialsB (escStr (itemSrcs (.obj [("title", .str "A<b&c"),
          ("isbn", .str "1\"2"), ("sources", .arr [.str "x'y"])]))) = true) :=
  ⟨rfl, (escapeHtml_escapes "x" _).2.2.2.2 rfl⟩

/-- A well-formed book value renders without throwing and enables save. -/
theorem renderBook_ok (b : Json) (st : UIState) (h : bookWF b = true) :
    (renderBook b st).2 = none ∧ (renderBook b st).1.btnSaveDisabled = false := by
  unfold bookWF at h
  rcases hA : authorsJoined b with eA | jA
  · rw [hA] at h; simp [exOk] at h
  rcases hL : languageEntry b with eL | lL
  · rw [hL] at h; simp [exOk] at h
  rcases hS : sourcesList b with eS | lS
  · rw [hS] at h; simp [exOk] at h
  simp [renderBook, hA, hL, hS]

/-- C2: on any well-formed lookup response, `renderLookup` completes
without throwing, the save action ends enabled exactly when the result
carries a (truthy) book and no (truthy) error, and on an error or bookless
result the save action is disabled and the preview hidden. -/
theorem renderLookup_save_gate (r : Json) (st : UIState) (h : lookupWF r = true) :
    (renderLookup r st).2 = none
    ∧ ((renderLookup r st).1.btnSaveDisabled = false
        ↔ (errTruthy r = false ∧ bookTruthy r = true))
    ∧ ((errTruthy r = true ∨ bookTruthy r = false) →
        (renderLookup r st).1.btnSaveDisabled = true
        ∧ (renderLookup r st).1.previewVisible = false) := by
  rcases r with _ | b | n | t | xs | fs
  · simp [lookupWF] at h
  · simp [lookupWF] at h
  · simp [lookupWF] at h
  · simp [lookupWF] at h
  · simp [lookupWF] at h
  by_cases he : errTruthy (.obj fs)
  · refine ⟨?_, ?_, fun _ => ⟨?_, ?_⟩⟩ <;> simp [renderLookup, he]
  · simp only [lookupWF, he, Bool.false_or] at h
    rcases hk : fieldD (.obj fs) "kind" with _ | v
    · rw [hk] at h; simp at h
    rcases v with _ | vb | vn | ks | vxs | vfs
    · rw [hk] at h; simp at h
    · rw [hk] at h; simp at h
    · rw [hk] at h; simp at h
    rotate_left
    · rw [hk] at h; simp at h
    · rw [hk] at h; simp at h
    rw [hk] at h
    simp only at h
    by_cases hb : bookTruthy (.obj fs)
    · have hw : bookWF ((fieldD (.obj fs) "book").getD .null) = true := by
        simpa [hb] using h
      have hro := renderBook_ok ((fieldD (.obj fs) "book").getD .null)
        (showStatus { st with lastLookup := .obj fs, rawText := stringify (.obj fs) }
          ("OK: " ++ upperStr ks ++ " "
            ++ (match fieldD (.obj fs) "value" with
                | some v => jsToString v
                | none => "undefined")) false) hw
      simp only [renderLookup, he, if_false, hk, hb, if_true, Bool.false_eq_true]
      refine ⟨hro.1, ?_, ?_⟩
      · simp [hro.2, hb]
      · intro hcontra
        rcases hcontra with hc | hc
        · exact absurd hc (by simp [he])
        · exact absurd hc (by simp [hb])
    · simp only [renderLookup, he, if_false, hk, hb]
      refine ⟨rfl, ?_, fun _ => ⟨rfl, rfl⟩⟩
      simp [hb]

/-- C2 (witness): a book-carrying result enables save; an error result
keeps it disabled with the preview hidden. -/
theorem renderLookup_save_gate_witness :
    lookupWF lkJson = true
    ∧ (renderLookup lkJson blankUI).2 = none
    ∧ (renderLookup lkJson blankUI).1.btnSaveDisabled = false
    ∧ (renderLookup (.obj [("error", .str "Not found")]) blankUI).1.btnSaveDisabled = true
    ∧ (renderLookup (.obj [("error", .str "Not found")]) blankUI).1.previewVisible = false :=
  ⟨rfl,
   (renderLookup_save_gate lkJson blankUI rfl).1,
   ((renderLookup_save_gate lkJson blankUI rfl).2.1).mpr ⟨rfl, rfl⟩,
   ((renderLookup_save_gate (.obj [("error", .str "Not found")]) blankUI rfl).2.2
     (Or.inl rfl)).1,
   ((renderLookup_save_gate (.obj [("error", .str "Not found")]) blankUI rfl).2.2
     (Or.inl rfl)).2⟩

/-- An empty trimmed code makes `doLookup` a strict no-op. -/
theorem doLookup_no_code (resp : Except JsErr Json) (st : UIState)
    (h : trimStr st.codeValue = "") : doLookup resp st = (st, []) := by
  simp [doLookup, h]

/-- A non-empty trimmed code makes `doLookup` issue exactly one lookup
request carrying the trimmed code, whatever the response. -/
theorem doLookup_one_request (resp : Except JsErr Json) (st : UIState)
    (h : trimStr st.codeValue ≠ "") :
    (doLookup resp st).2 = [Request.lookup (trimStr st.codeValue)] := by
  simp only [doLookup]
  rw [if_neg h]
  rcases resp with e | d
  · rfl
  · rcases hr : renderLookup d (showStatus (clearUI st) "Looking up..." false) with ⟨st2, exc⟩
    rcases exc with _ | e2 <;> simp [hr]

/-- C8: with a non-empty trimmed code every `doLookup` invocation issues
exactly one lookup request whose body carries the trimmed code; with an
empty trimmed code it issues no request and leaves the UI state unchanged. -/
theorem doLookup_requests (resp : Except JsErr Json) (st : UIState) :
    (trimStr st.codeValue = "" → doLookup resp st = (st, []))
    ∧ (trimStr st.codeValue ≠ "" →
        (doLookup resp st).2 = [Request.lookup (trimStr st.codeValue)]) :=
  ⟨doLookup_no_code resp st, doLookup_one_request resp st⟩

/-- C8 (witness): a whitespace-only code is a no-op; a padded code issues
one request with the trimmed code. -/
theorem doLookup_requests_witness :
    doLookup nfResp { blankUI with codeValue := "  " } = ({ blankUI with codeValue := "  " }, [])
    ∧ (doLookup nfResp { blankUI with codeValue := " 978 " }).2 = [Request.lookup "978"] :=
  ⟨(doLookup_requests nfResp _).1 rfl,
   (doLookup_requests nfResp { blankUI with codeValue := " 978 " }).2 (by decide)⟩

/-- `scheduleLookup` never touches the UI state. -/
theorem scheduleLookup_st (s : Sys) : (scheduleLookup s).st = s.st := by
  unfold scheduleLookup
  by_cases hm : s.st.scannerMode = false
  · rw [if_pos hm]
  · rw [if_neg hm]
    rcases hl : s.lookupTimer with _ | id <;> simp [hl, clearTimeoutSys]

/-- Clearing the pending timer never touches the UI state. -/
theorem cancelPending_st (s : Sys) : (cancelPending s).st = s.st := by
  unfold cancelPending
  rcases hl : s.lookupTimer with _ | id <;> simp [hl, clearTimeoutSys]

/-- C1 (counterexample): with a debounce timer pending, clicking the lookup
button issues the lookup request but leaves the timer pending, and the
timer later fires a second, duplicate lookup request. -/
theorem buttonLookup_keeps_pending_timer :
    (step (.clickLookup nfResp) pendSys).2 = [Request.lookup "9780132350884"]
    ∧ (step (.clickLookup nfResp) pendSys).1.lookupTimer = some 0
    ∧ (step (.clickLookup nfResp) pendSys).1.live = [(0, JsNum.fin 100)]
    ∧ (step (.fireTimer nfResp) (step (.clickLookup nfResp) pendSys).1).2
        = [Request.lookup "9780132350884"] :=
  ⟨rfl, rfl, rfl, rfl⟩

/-- C1 (amended): only the Enter keypress (and Clear) cancels a pending
debounce timer before its explicit lookup fires — after Enter the timer
variable is cleared, no timer is live, a later timer-fire event issues no
request, and the Enter lookup itself issues the single request; the lookup
button click performs no such cancellation. -/
theorem enter_cancels_pending_timer (s : Sys) (id : Nat) (r r2 : Except JsErr Json)
    (hInv : SysInv s) (h : s.lookupTimer = some id) :
    (step (.enter r) s).1.lookupTimer = none
    ∧ (step (.enter r) s).1.live = []
    ∧ (step (.fireTimer r2) (step (.enter r) s).1).2 = []
    ∧ (trimStr s.st.codeValue ≠ "" →
        (step (.enter r) s).2 = [Request.lookup (trimStr s.st.codeValue)]) := by
  simp only [SysInv, h] at hInv
  obtain ⟨⟨d, hd⟩, hlt⟩ := hInv
  have hcp : cancelPending s = { s with live := [], lookupTimer := none } := by
    simp [cancelPending, clearTimeoutSys, h, hd]
  rcases hdl : doLookup r s.st with ⟨st2, reqs⟩
  have hstep : step (.enter r) s
      = ({ s with st := st2, live := [], lookupTimer := none }, reqs) := by
    simp [step, hcp, hdl]
  refine ⟨by rw [hstep], by rw [hstep], ?_, ?_⟩
  · rw [hstep]
    rfl
  · intro hne
    rw [hstep]
    have := doLookup_one_request r s.st hne
    rw [hdl] at this
    exact this

/-- C1 (witness): from the pending-timer fixture, Enter clears the timer,
a later fire is a no-op, and exactly one lookup request is issued. -/
theorem enter_cancels_pending_timer_witness :
    (step (.enter nfResp) pendSys).1.lookupTimer = none
    ∧ (step (.enter nfResp) pendSys).1.live = []
    ∧ (step (.fireTimer nfResp) (step (.enter nfResp) pendSys).1).2 = []
    ∧ (step (.enter nfResp) pendSys).2 = [Request.lookup "9780132350884"] := by
  have h := enter_cancels_pending_timer pendSys 0 nfResp nfResp ⟨⟨.fin 100, rfl⟩, by decide⟩ rfl
  exact ⟨h.1, h.2.1, h.2.2.1, h.2.2.2 (by decide)⟩

/-- `SysInv` is preserved by `scheduleLookup`. -/
theorem sysInv_schedule (s : Sys) (h : SysInv s) : SysInv (scheduleLookup s) := by
  unfold scheduleLookup
  by_cases hm : s.st.scannerMode = false
  · rw [if_pos hm]; exact h
  rw [if_neg hm]
  rcases hl : s.lookupTimer with _ | id
  · simp only [SysInv, hl] at h
    simp only [SysInv, h, List.nil_append]
    exact ⟨⟨_, rfl⟩, Nat.lt_succ_self _⟩
  · simp only [SysInv, hl] at h
    obtain ⟨⟨d, hd⟩, hlt⟩ := h
    have hfil : List.filter (fun t => t.1 ≠ id) s.live = [] := by
      rw [hd]; simp
    simp only [SysInv, clearTimeoutSys, hfil, List.nil_append]
    exact ⟨⟨_, rfl⟩, Nat.lt_succ_self _⟩

/-- `SysInv` is preserved by clearing the pending timer. -/
theorem sysInv_cancel (s : Sys) (h : SysInv s) : SysInv (cancelPending s) := by
  unfold cancelPending
  rcases hl : s.lookupTimer with _ | id
  · exact h
  · simp only [SysInv, hl] at h
    obtain ⟨⟨d, hd⟩, hlt⟩ := h
    simp only [SysInv, clearTimeoutSys, hd]
    simp

/-- C6 (counterexample): with scanner mode switched off while a debounce
timer is pending, a new input event does not cancel the prior timer and
starts no new one — the claim's "subsequent input cancels the prior timer"
fails in such states, though the single-timer bound still holds. -/
theorem input_mode_off_keeps_prior_timer :
    (step (.input "ab") offPendSys).1.lookupTimer = some 0
    ∧ (step (.input "ab") offPendSys).1.live = [(0, JsNum.fin 250)]
    ∧ (step (.input "ab") offPendSys).1.nextId = 1 :=
  ⟨rfl, rfl, rfl⟩

/-- C6 (amended): at most one debounce timer is ever pending (the timer
invariant is preserved by every event), and while scanner mode is enabled
a subsequent input event cancels the pending timer and schedules a single
fresh one with the computed delay; with scanner mode disabled an input
event leaves a leftover pending timer untouched. -/
theorem debounce_single_timer (s : Sys) (ev : Ev) (v : String) (id : Nat)
    (hInv : SysInv s) :
    SysInv (step ev s).1
    ∧ (s.st.scannerMode = true → s.lookupTimer = some id →
        (step (.input v) s).1.lookupTimer = some s.nextId
        ∧ (step (.input v) s).1.live = [(s.nextId, computeDelay s.st.scannerDelayValue)]
        ∧ id ≠ s.nextId
        ∧ (step (.input v) s).1.live.any (fun t => t.1 = id) = false) := by
  constructor
  · cases ev with
    | input w =>
      have hs : (step (.input w) s).1
          = scheduleLookup { s with st := { s.st with codeValue := w } } := rfl
      rw [hs]
      exact sysInv_schedule _ hInv
    | enter r =>
      rcases hdl : doLookup r (cancelPending s).st with ⟨st2, reqs⟩
      have hs : (step (.enter r) s).1 = { cancelPending s with st := st2 } := by
        simp [step, hdl]
      rw [hs]
      exact sysInv_cancel s hInv
    | clickLookup r =>
      rcases hdl : doLookup r s.st with ⟨st2, reqs⟩
      have hs : (step (.clickLookup r) s).1 = { s with st := st2 } := by
        simp [step, hdl]
      rw [hs]
      exact hInv
    | clickSave r =>
      rcases hdl : doSave r s.st with ⟨st2, reqs⟩
      have hs : (step (.clickSave r) s).1 = { s with st := { st2 with codeValue := "" } } := by
        simp [step, hdl]
      rw [hs]
      exact hInv
    | clickClear =>
      have hs : (step .clickClear s).1
          = cancelPending { s with st := { clearUI s.st with codeValue := "" } } := rfl
      rw [hs]
      exact sysInv_cancel _ hInv
    | fireTimer r =>
      rcases hl : s.lookupTimer with _ | tid
      · have hs : (step (.fireTimer r) s).1 = s := by simp [step, hl]
        rw [hs]; exact hInv
      · by_cases ha : s.live.any (fun t => t.1 = tid) = true
        · rcases hdl : doLookup r (clearTimeoutSys tid s).st with ⟨st2, reqs⟩
          have hs : (step (.fireTimer r) s).1
              = { clearTimeoutSys tid s with lookupTimer := none, st := st2 } := by
            simp [step, hl, ha, hdl]
          rw [hs]
          simp only [SysInv, hl] at hInv
          obtain ⟨⟨d, hd⟩, hlt⟩ := hInv
          simp only [SysInv, clearTimeoutSys, hd]
          simp
        · have hs : (step (.fireTimer r) s).1 = s := by
            simp [step, hl, ha]
          rw [hs]; exact hInv
    | modeChange c =>
      have hs : (step (.modeChange c) s).1
          = { s with st := { s.st with scannerMode := c } } := rfl
      rw [hs]; exact hInv
    | delayChange w =>
      have hs : (step (.delayChange w) s).1
          = { s with st := { s.st with scannerDelayValue := w } } := rfl
      rw [hs]; exact hInv
    | clickRefresh c r =>
      rcases hdl : refreshAllBooks c r s.st with ⟨st2, reqs⟩
      have hs : (step (.clickRefresh c r) s).1 = { s with st := st2 } := by
        simp [step, hdl]
      rw [hs]
      exact hInv
  · intro hm h
    simp only [SysInv, h] at hInv
    obtain ⟨⟨d, hd⟩, hlt⟩ := hInv
    have hs : (step (.input v) s).1
        = scheduleLookup { s with st := { s.st with codeValue := v } } := rfl
    have hm2 : ¬ ({ s with st := { s.st with codeValue := v } } : Sys).st.scannerMode = false := by
      simp [hm]
    have hsched : scheduleLookup { s with st := { s.st with codeValue := v } }
        = { s with
            st := { s.st with codeValue := v }
            live := [(s.nextId, computeDelay s.st.scannerDelayValue)]
            lookupTimer := some s.nextId
            nextId := s.nextId + 1 } := by
      unfold scheduleLookup
      rw [if_neg hm2]
      simp [clearTimeoutSys, hd, h]
    rw [hs, hsched]
    refine ⟨rfl, rfl, Nat.ne_of_lt hlt, ?_⟩
    simp [Ne.symm (Nat.ne_of_lt hlt)]

/-- C6 (witness): from the pending-timer fixture in scanner mode, a new
input cancels timer 0 and schedules exactly timer 1; the invariant is
preserved. -/
theorem debounce_single_timer_witness :
    SysInv (step (.input "978") pendSys).1
    ∧ (step (.input "978") pendSys).1.lookupTimer = some 1
    ∧ (step (.input "978") pendSys).1.live = [(1, computeDelay "100")]
    ∧ (0 : Nat) ≠ 1
    ∧ (step (.input "978") pendSys).1.live.any (fun t => t.1 = 0) = false := by
  have h := debounce_single_timer pendSys (.input "978") "978" 0
    ⟨⟨.fin 100, rfl⟩, by decide⟩
  have h2 := h.2 rfl rfl
  exact ⟨h.1, h2.1, h2.2.1, h2.2.2.1, h2.2.2.2⟩

/-- `doSave` never re-enables a disabled save action. -/
theorem doSave_keeps_disabled (resp : Except JsErr Json) (st : UIState)
    (h : st.btnSaveDisabled = true) : (doSave resp st).1.btnSaveDisabled = true := by
  unfold doSave
  rcases hs : savedBook st with _ | b
  · exact h
  rcases resp with e | d
  · exact h
  rcases d with _ | b2 | n2 | s2 | xs2 | fs2 <;> first | exact h | rfl

/-- `renderRefreshReport` never touches the save action. -/
theorem renderRefreshReport_disabled (r : Json) (st : UIState) :
    (renderRefreshReport r st).1.btnSaveDisabled = st.btnSaveDisabled := by
  unfold renderRefreshReport
  rcases hit : refreshItems r with _ | b | n | t | xs | fs
  · rfl
  · rfl
  · rfl
  · by_cases hlen : t.length = 0 <;> simp [hlen]
  · by_cases hxs : xs.isEmpty
    · simp [hxs]
    · rcases hih : itemsHtml xs with e | html <;> simp [hxs, hih]
  · rfl

/-- `refreshAllBooks` never touches the save action. -/
theorem refresh_keeps_disabled (c : Bool) (resp : Except JsErr Json) (st : UIState) :
    (refreshAllBooks c resp st).1.btnSaveDisabled = st.btnSaveDisabled := by
  unfold refreshAllBooks
  by_cases hc : c = true
  · subst hc
    simp only [Bool.not_true, if_neg (by simp : ¬ (false = true))]
    rcases resp with e | d
    · rfl
    rcases hrr : renderRefreshReport d
        ({ showStatus st "Refreshing all books..." false with rawText := stringify d })
        with ⟨st3, exc⟩
    have h3 : st3.btnSaveDisabled = st.btnSaveDisabled := by
      have := renderRefreshReport_disabled d
        ({ showStatus st "Refreshing all books..." false with rawText := stringify d })
      rw [hrr] at this
      exact this
    rcases exc with _ | e2
    · rcases d with _ | b2 | n2 | s2 | xs2 | fs2 <;>
        · simp only [hrr]
          first
          | exact h3
          | (rcases hfc : fieldD (Json.obj fs2) "counts" with _ | cv
             · simp [hfc, h3, showStatus]
             · rcases cv with _ | cb | cn | cs | cxs | cfs <;> simp [hfc, h3, showStatus])
    · simp only [hrr]
      exact h3
  · have hcf : c = false := by
      rcases c with _ | _
      · rfl
      · exact absurd rfl hc
    subst hcf
    rfl

/-- A throwing or non-enabling `renderLookup` keeps a disabled save action
disabled; when the input state has save disabled and the rendered state has
it enabled, the result necessarily carried no truthy error and a truthy
book. -/
theorem renderLookup_disabled_of (r : Json) (st : UIState)
    (h : st.btnSaveDisabled = true)
    (hf : (renderLookup r st).1.btnSaveDisabled = false) :
    errTruthy r = false ∧ bookTruthy r = true := by
  rcases r with _ | b | n | t | xs | fs
  · simp [renderLookup, h] at hf
  · simp [renderLookup, errTruthy, fieldD, jsTruthyOpt, h] at hf
  · simp [renderLookup, errTruthy, fieldD, jsTruthyOpt, h] at hf
  · simp [renderLookup, errTruthy, fieldD, jsTruthyOpt, h] at hf
  · simp [renderLookup, errTruthy, fieldD, jsTruthyOpt, h] at hf
  by_cases he : errTruthy (.obj fs)
  · simp [renderLookup, he, h] at hf
  rcases hk : fieldD (.obj fs) "kind" with _ | v
  · simp [renderLookup, he, hk, h] at hf
  rcases v with _ | vb | vn | ks | vxs | vfs
  · simp [renderLookup, he, hk, h] at hf
  · simp [renderLookup, he, hk, h] at hf
  · simp [renderLookup, he, hk, h] at hf
  rotate_left
  · simp [renderLookup, he, hk, h] at hf
  · simp [renderLookup, he, hk, h] at hf
  by_cases hb : bookTruthy (.obj fs)
  · exact ⟨by simpa using he, hb⟩
  · simp [renderLookup, he, hk, hb, h] at hf

/-- When `doLookup` flips a disabled save action to enabled, the response
was a successfully parsed body with no truthy error and a truthy book. -/
theorem doLookup_disabled_of (resp : Except JsErr Json) (st : UIState)
    (h : st.btnSaveDisabled = true)
    (hf : (doLookup resp st).1.btnSaveDisabled = false) :
    ∃ d, resp = .ok d ∧ errTruthy d = false ∧ bookTruthy d = true := by
  by_cases hc : trimStr st.codeValue = ""
  · rw [doLookup_no_code resp st hc] at hf
    simp [h] at hf
  rcases resp with e | d
  · simp only [doLookup] at hf
    rw [if_neg hc] at hf
    simp [showStatus, clearUI] at hf
  refine ⟨d, rfl, ?_⟩
  simp only [doLookup] at hf
  rw [if_neg hc] at hf
  rcases hr : renderLookup d (showStatus (clearUI st) "Looking up..." false) with ⟨st2, exc⟩
  rw [hr] at hf
  have h1 : (showStatus (clearUI st) "Looking up..." false).btnSaveDisabled = true := rfl
  rcases exc with _ | e2
  · simp only at hf
    exact renderLookup_disabled_of d _ h1 (by rw [hr]; exact hf)
  · simp only at hf
    exact renderLookup_disabled_of d _ h1 (by rw [hr]; exact hf)

/-- No page event flips a disabled save action to enabled except a lookup
trigger whose response rendered a truthy book with no truthy error. -/
theorem step_disabled_of (ev : Ev) (s : Sys)
    (h : s.st.btnSaveDisabled = true)
    (hf : (step ev s).1.st.btnSaveDisabled = false) :
    enablingLookup ev = true := by
  cases ev with
  | input w =>
    have hs : (step (.input w) s).1
        = scheduleLookup { s with st := { s.st with codeValue := w } } := rfl
    rw [hs, scheduleLookup_st] at hf
    simp [h] at hf
  | enter r =>
    rcases hdl : doLookup r (cancelPending s).st with ⟨st2, reqs⟩
    have hs : (step (.enter r) s).1.st = st2 := by
      simp [step, hdl]
    rw [hs] at hf
    rw [cancelPending_st] at hdl
    obtain ⟨d, hd, he, hb⟩ := doLookup_disabled_of r s.st h (by rw [hdl]; exact hf)
    subst hd
    simp [enablingLookup, he, hb]
  | clickLookup r =>
    rcases hdl : doLookup r s.st with ⟨st2, reqs⟩
    have hs : (step (.clickLookup r) s).1.st = st2 := by
      simp [step, hdl]
    rw [hs] at hf
    obtain ⟨d, hd, he, hb⟩ := doLookup_disabled_of r s.st h (by rw [hdl]; exact hf)
    subst hd
    simp [enablingLookup, he, hb]
  | clickSave r =>
    rcases hdl : doSave r s.st with ⟨st2, reqs⟩
    have hs : (step (.clickSave r) s).1.st = { st2 with codeValue := "" } := by
      simp [step, hdl]
    rw [hs] at hf
    have := doSave_keeps_disabled r s.st h
    rw [hdl] at this
    simp only at this
    simp [this] at hf
  | clickClear =>
    have hs : (step .clickClear s).1.st = { clearUI s.st with codeValue := "" } := by
      have : (step .clickClear s).1
          = cancelPending { s with st := { clearUI s.st with codeValue := "" } } := rfl
      rw [this, cancelPending_st]
    rw [hs] at hf
    simp [clearUI] at hf
  | fireTimer r =>
    rcases hl : s.lookupTimer with _ | tid
    · have hs : (step (.fireTimer r) s).1 = s := by simp [step, hl]
      rw [hs] at hf
      simp [h] at hf
    by_cases ha : s.live.any (fun t => t.1 = tid) = true
    · rcases hdl : doLookup r (clearTimeoutSys tid s).st with ⟨st2, reqs⟩
      have hs : (step (.fireTimer r) s).1.st = st2 := by
        simp [step, hl, ha, hdl]
      rw [hs] at hf
      have hst : (clearTimeoutSys tid s).st = s.st := rfl
      rw [hst] at hdl
      obtain ⟨d, hd, he, hb⟩ := doLookup_disabled_of r s.st h (by rw [hdl]; exact hf)
      subst hd
      simp [enablingLookup, he, hb]
    · have hs : (step (.fireTimer r) s).1 = s := by
        simp [step, hl, ha]
      rw [hs] at hf
      simp [h] at hf
  | modeChange c =>
    have hs : (step (.modeChange c) s).1.st = { s.st with scannerMode := c } := rfl
    rw [hs] at hf
    simp [h] at hf
  | delayChange w =>
    have hs : (step (.delayChange w) s).1.st = { s.st with scannerDelayValue := w } := rfl
    rw [hs] at hf
    simp [h] at hf
  | clickRefresh c r =>
    rcases hdl : refreshAllBooks c r s.st with ⟨st2, reqs⟩
    have hs : (step (.clickRefresh c r) s).1.st = st2 := by
      simp [step, hdl]
    rw [hs] at hf
    have := refresh_keeps_disabled c r s.st
    rw [hdl] at this
    simp only at this
    rw [this, h] at hf
    exact absurd hf (by simp)

/-- C5 (counterexample): a save request that returns without error but with
an empty body (parsed as `null`) throws while reading `result.saved`,
before the disable line — so after this successful save the save action is
still enabled. -/
theorem doSave_null_body_keeps_save_enabled :
    savedBook savedSt = some bookJson
    ∧ (doSave (.ok .null) savedSt).2 = [Request.save bookJson]
    ∧ (doSave (.ok .null) savedSt).1.btnSaveDisabled = false :=
  ⟨rfl, rfl, rfl⟩

/-- C5 (amended): a successful save whose parsed response body is non-null
disables the save action, and no page event re-enables a disabled save
action other than a lookup trigger whose response carries a truthy book
and no truthy error (the null-body save response is the one exception to
the first half). -/
theorem save_disable_invariant (st : UIState) (d : Json) (b : Json) (ev : Ev) (s : Sys) :
    (savedBook st = some b → d ≠ .null →
      (doSave (.ok d) st).1.btnSaveDisabled = true)
    ∧ (s.st.btnSaveDisabled = true → (step ev s).1.st.btnSaveDisabled = false →
        enablingLookup ev = true) := by
  constructor
  · intro hs hd
    unfold doSave
    rw [hs]
    rcases d with _ | b2 | n2 | s2 | xs2 | fs2
    · exact absurd rfl hd
    · rfl
    · rfl
    · rfl
    · rfl
    · rfl
  · exact step_disabled_of ev s

/-- C5 (witness): a save of the fixture book with an object response body
disables save; rendering a successful book lookup re-enables it and is an
enabling event. -/
theorem save_disable_invariant_witness :
    (doSave (.ok (.obj [("saved", .obj [("id", .num 7)])])) savedSt).1.btnSaveDisabled = true
    ∧ enablingLookup (.clickLookup (.ok lkJson)) = true := by
  constructor
  · exact (save_disable_invariant savedSt (.obj [("saved", .obj [("id", .num 7)])]) bookJson
      (.clickLookup (.ok lkJson))
      { st := { blankUI with codeValue := "x" }, lookupTimer := none, live := [], nextId := 0 }).1
      rfl (fun hh => Json.noConfusion hh)
  · exact (save_disable_invariant savedSt (.obj [("saved", .obj [("id", .num 7)])]) bookJson
      (.clickLookup (.ok lkJson))
      { st := { blankUI with codeValue := "x" }, lookupTimer := none, live := [], nextId := 0 }).2
      rfl rfl

/-- C9: every modelled failure of a lookup, save, or bulk-refresh action —
transport/HTTP errors thrown by `apiPost`, and exceptions thrown while the
response is rendered (a bodyless lookup result, a null save body, a null
refresh body) — is caught by its handler, which shows the error message
(or the generic fallback when the message is empty) as error-styled status
text; the handlers are total functions of the response, so no exception
escapes them. -/
theorem handlers_catch_errors (st : UIState) (e : JsErr) (d : Json) (b : Json) :
    (trimStr st.codeValue ≠ "" →
      (doLookup (.error e) st).1.statusVisible = true
      ∧ (doLookup (.error e) st).1.statusIsError = true
      ∧ (doLookup (.error e) st).1.statusText = msgOr e "Lookup failed")
    ∧ (trimStr st.codeValue ≠ "" → ∀ st2 e2,
        renderLookup d (showStatus (clearUI st) "Looking up..." false) = (st2, some e2) →
        (doLookup (.ok d) st).1.statusVisible = true
        ∧ (doLookup (.ok d) st).1.statusIsError = true
        ∧ (doLookup (.ok d) st).1.statusText = msgOr e2 "Lookup failed")
    ∧ (savedBook st = some b →
        (doSave (.error e) st).1.statusVisible = true
        ∧ (doSave (.error e) st).1.statusIsError = true
        ∧ (doSave (.error e) st).1.statusText = msgOr e "Save failed")
    ∧ (savedBook st = some b →
        (doSave (.ok .null) st).1.statusVisible = true
        ∧ (doSave (.ok .null) st).1.statusIsError = true
        ∧ (doSave (.ok .null) st).1.statusText
            = msgOr ⟨"TypeError: Cannot read properties of null (reading 'saved')"⟩
                "Save failed")
    ∧ ((refreshAllBooks true (.error e) st).1.statusVisible = true
        ∧ (refreshAllBooks true (.error e) st).1.statusIsError = true
        ∧ (refreshAllBooks true (.error e) st).1.statusText = msgOr e "Refresh failed")
    ∧ ((refreshAllBooks true (.ok .null) st).1.statusVisible = true
        ∧ (refreshAllBooks true (.ok .null) st).1.statusIsError = true
        ∧ (refreshAllBooks true (.ok .null) st).1.statusText
            = msgOr ⟨"TypeError: Cannot read properties of null (reading 'counts')"⟩
                "Refresh failed") := by
  refine ⟨?_, ?_, ?_, ?_, ?_, ?_⟩
  · intro hne
    simp only [doLookup]
    rw [if_neg hne]
    exact ⟨rfl, rfl, rfl⟩
  · intro hne st2 e2 hr
    simp only [doLookup]
    rw [if_neg hne, hr]
    exact ⟨rfl, rfl, rfl⟩
  · intro hsb
    unfold doSave
    rw [hsb]
    exact ⟨rfl, rfl, rfl⟩
  · intro hsb
    unfold doSave
    rw [hsb]
    exact ⟨rfl, rfl, rfl⟩
  · exact ⟨rfl, rfl, rfl⟩
  · exact ⟨rfl, rfl, rfl⟩

/-- C9 (witness): on a concrete page, an empty-message transport error
shows each generic fallback, and the three rendering throws show their
TypeError messages. -/
theorem handlers_catch_errors_witness :
    (doLookup (.error ⟨""⟩) errSt).1.statusText = msgOr ⟨""⟩ "Lookup failed"
    ∧ (doLookup (.ok (.num 5)) errSt).1.statusText
        = msgOr ⟨"TypeError: result.kind.toUpperCase is not a function"⟩ "Lookup failed"
    ∧ (doSave (.error ⟨""⟩) errSt).1.statusText = msgOr ⟨""⟩ "Save failed"
    ∧ (doSave (.ok .null) errSt).1.statusText
        = msgOr ⟨"TypeError: Cannot read properties of null (reading 'saved')"⟩ "Save failed"
    ∧ (refreshAllBooks true (.error ⟨""⟩) errSt).1.statusText = msgOr ⟨""⟩ "Refresh failed"
    ∧ (refreshAllBooks true (.ok .null) errSt).1.statusText
        = msgOr ⟨"TypeError: Cannot read properties of null (reading 'counts')"⟩
            "Refresh failed" := by
  have h := handlers_catch_errors errSt ⟨""⟩ (.num 5) bookJson
  exact ⟨(h.1 (by decide)).2.2,
    (h.2.1 (by decide) _ _ rfl).2.2,
    (h.2.2.1 rfl).2.2,
    (h.2.2.2.1 rfl).2.2,
    h.2.2.2.2.1.2.2,
    h.2.2.2.2.2.2.2⟩

end SanctumLibrary
